import Mathlib

/-!
# Verification of the papass randomness core and secret generators

Shallow embedding notes:

* `compute_dice_frame`, `rolls_to_value` and the dice rejection loop live in
  `papass/random/dice.py` and `papass/utils.py`, which are not among the
  available sources (only their tests are); they are modelled from the
  specification (sections 4.1 and 4.2).  Their doc comments say so.
* The passphrase generator (`papass/passphrase_generator.py`), the password
  generator (`papass/password_generator.py`) and the rng registry
  (`papass/random_source/registry.py`) are embedded directly from the source.
* A random source is modelled by the stream `rb : ℕ → ℕ` of its successive
  `randbelow` outputs; `choice(seq)` is `seq[randbelow(len(seq))]`.
* Python floats are modelled by `ℚ` (the success probability) and by `ℝ`
  (entropies, which involve `log2`); arbitrary-precision integers by `ℕ`.
-/

namespace Papass

/-- The result record of `compute_dice_frame` (field names follow the test
`test_compute_frame` in `tests/papass/random/test_dice.py`). -/
structure DiceFrame where
  required_num_rolls : ℕ
  upper_multiple : ℕ
  deriving DecidableEq, Repr

/-- Modelled from the spec: the usable (rejection) range for `n` rolls — the
largest multiple of `upper` not exceeding the domain `num_sides ^ n`, i.e.
`floor(domain / upper) * upper`. -/
def usable (num_sides upper n : ℕ) : ℕ :=
  num_sides ^ n / upper * upper

/-- Modelled from the spec: the single-batch success probability
`usable / domain` for `n` rolls. -/
def success_probability (num_sides upper n : ℕ) : ℚ :=
  (usable num_sides upper n : ℚ) / ((num_sides ^ n : ℕ) : ℚ)

/-- Modelled from the spec: the loop test `usable / domain ≥ p`.  It is
evaluated by integer cross-multiplication so that the model stays inside
executable integer arithmetic; `meets_target_iff` proves it equivalent to the
rational inequality of the spec. -/
def meets_target (num_sides upper n : ℕ) (p : ℚ) : Bool :=
  decide (p.num * ((num_sides ^ n : ℕ) : ℤ)
    ≤ ((usable num_sides upper n : ℕ) : ℤ) * (p.den : ℤ))

/-- Fuel that provably suffices for the search loop of `compute_dice_frame`
under the preconditions `2 ≤ num_sides`, `2 ≤ upper`, `p < 1`
(see `frame_window`). -/
def frame_fuel (upper : ℕ) (p : ℚ) : ℕ :=
  upper * p.den + 1

/-- Modelled from the spec: the search loop of `compute_dice_frame` — starting
at `numRolls = n`, increment `numRolls` until the success probability reaches
`p` and return the first value that does.  The fuel argument only bounds the
search; `frame_fuel` is proven sufficient under the preconditions. -/
def find_rolls (num_sides upper : ℕ) (p : ℚ) : ℕ → ℕ → ℕ
  | 0, n => n
  | fuel + 1, n =>
    if meets_target num_sides upper n p then n
    else find_rolls num_sides upper p fuel (n + 1)

/-- Modelled from the spec: the minimum number of rolls meeting the required
success probability (the loop of `compute_dice_frame` starts at one roll). -/
def required_num_rolls (num_sides upper : ℕ) (p : ℚ) : ℕ :=
  find_rolls num_sides upper p (frame_fuel upper p) 1

/-- Modelled from the spec: `compute_dice_frame` of `papass/random/dice.py` —
the sampling plan consisting of the minimal number of rolls together with its
usable rejection range. -/
def compute_dice_frame (num_sides upper : ℕ) (p : ℚ) : DiceFrame :=
  { required_num_rolls := required_num_rolls num_sides upper p
    upper_multiple := usable num_sides upper (required_num_rolls num_sides upper p) }

lemma usable_le (s u n : ℕ) : usable s u n ≤ s ^ n :=
  Nat.div_mul_le_self _ _

lemma dvd_usable (s u n : ℕ) : u ∣ usable s u n :=
  dvd_mul_left u (s ^ n / u)

lemma usable_add_mod (s u n : ℕ) : usable s u n + s ^ n % u = s ^ n := by
  unfold usable
  rw [Nat.mul_comm (s ^ n / u) u]
  exact Nat.div_add_mod _ _

lemma success_probability_nonneg (s u n : ℕ) : 0 ≤ success_probability s u n := by
  unfold success_probability
  positivity

lemma success_probability_zero (s u : ℕ) (hu : 2 ≤ u) :
    success_probability s u 0 = 0 := by
  unfold success_probability usable
  rw [pow_zero, Nat.div_eq_of_lt (by omega)]
  simp

/-- The executable loop test agrees with the rational inequality of the spec. -/
lemma meets_target_iff (s u n : ℕ) (p : ℚ) (hs : 1 ≤ s) :
    meets_target s u n p = true ↔ p ≤ success_probability s u n := by
  have hD : (0 : ℚ) < ((s ^ n : ℕ) : ℚ) := by
    exact_mod_cast pow_pos (show 0 < s by omega) n
  have hden : (0 : ℚ) < ((p.den : ℕ) : ℚ) := by exact_mod_cast p.pos
  have key : (p ≤ ((usable s u n : ℕ) : ℚ) / ((s ^ n : ℕ) : ℚ)) ↔
      ((p.num : ℚ) * ((s ^ n : ℕ) : ℚ)
        ≤ ((usable s u n : ℕ) : ℚ) * ((p.den : ℕ) : ℚ)) := by
    rw [le_div_iff₀ hD]
    nth_rewrite 1 [← Rat.num_div_den p]
    rw [div_mul_eq_mul_div, div_le_iff₀ hden]
  simp only [meets_target, decide_eq_true_eq, success_probability]
  rw [key]
  constructor <;> intro h <;> exact_mod_cast h

/-- A positive rational is at least one over its denominator. -/
lemma one_div_den_le (q : ℚ) (hq : 0 < q) : 1 / (q.den : ℚ) ≤ q := by
  have hden : (0 : ℚ) < (q.den : ℚ) := by
    exact_mod_cast q.pos
  have hnum : (1 : ℚ) ≤ (q.num : ℚ) := by
    have h : (1 : ℤ) ≤ q.num := Rat.num_pos.mpr hq
    exact_mod_cast h
  rw [div_le_iff₀ hden]
  have hqd : q * (q.den : ℚ) = (q.num : ℚ) := by
    nth_rewrite 1 [← Rat.num_div_den q]
    exact div_mul_cancel₀ _ hden.ne'
  rw [hqd]
  exact hnum

/-- Existence of a number of rolls meeting the target probability: at
`upper * (1 - p).den` rolls the success probability is at least `p`. -/
lemma success_probability_target (s u : ℕ) (p : ℚ)
    (hs : 2 ≤ s) (hu : 1 ≤ u) (hp1 : p < 1) :
    p ≤ success_probability s u (u * (1 - p).den) := by
  set den : ℕ := (1 - p).den with hden_def
  set n : ℕ := u * den with hn_def
  have hdpos : 0 < den := (1 - p).pos
  -- the domain dominates `(u - 1) * den` in ℕ
  have hdom : (u - 1) * den < s ^ n := by
    calc (u - 1) * den ≤ u * den := Nat.mul_le_mul_right _ (Nat.sub_le _ _)
      _ < 2 ^ n := Nat.lt_two_pow _
      _ ≤ s ^ n := Nat.pow_le_pow_left hs _
  have hDpos : (0 : ℚ) < ((s ^ n : ℕ) : ℚ) := by
    exact_mod_cast pow_pos (show 0 < s by omega) n
  have hmodlt : s ^ n % u < u := Nat.mod_lt _ (by omega)
  have husable : ((usable s u n : ℕ) : ℚ)
      = ((s ^ n : ℕ) : ℚ) - ((s ^ n % u : ℕ) : ℚ) := by
    have h2 : ((usable s u n : ℕ) : ℚ) + ((s ^ n % u : ℕ) : ℚ)
        = ((s ^ n : ℕ) : ℚ) := by
      exact_mod_cast congrArg (fun k : ℕ => (k : ℚ)) (usable_add_mod s u n)
    linarith
  have h1p : (0 : ℚ) < 1 - p := by linarith
  have hq : 1 / (den : ℚ) ≤ 1 - p := one_div_den_le (1 - p) h1p
  have hcast : ((u : ℚ) - 1) * (den : ℚ) ≤ ((s ^ n : ℕ) : ℚ) := by
    have h' : ((u - 1) * den : ℕ) ≤ s ^ n := le_of_lt hdom
    have h'' : (((u - 1) * den : ℕ) : ℚ) ≤ ((s ^ n : ℕ) : ℚ) := Nat.cast_le.mpr h'
    rw [Nat.cast_mul, Nat.cast_sub hu] at h''
    simpa using h''
  have hmod_le : ((s ^ n % u : ℕ) : ℚ) ≤ (u : ℚ) - 1 := by
    have h3 : (s ^ n % u) + 1 ≤ u := hmodlt
    have h4 : (((s ^ n % u) + 1 : ℕ) : ℚ) ≤ (u : ℚ) := Nat.cast_le.mpr h3
    push_cast at h4
    linarith
  have hden_le : ((u : ℚ) - 1) ≤ (1 - p) * ((s ^ n : ℕ) : ℚ) := by
    have hdq : (0 : ℚ) < (den : ℚ) := by exact_mod_cast hdpos
    calc (u : ℚ) - 1 = ((u : ℚ) - 1) * (den : ℚ) * (1 / (den : ℚ)) := by
          field_simp
      _ ≤ ((s ^ n : ℕ) : ℚ) * (1 / (den : ℚ)) := by
          apply mul_le_mul_of_nonneg_right hcast
          positivity
      _ ≤ ((s ^ n : ℕ) : ℚ) * (1 - p) := by
          apply mul_le_mul_of_nonneg_left hq (le_of_lt hDpos)
      _ = (1 - p) * ((s ^ n : ℕ) : ℚ) := mul_comm _ _
  have hexpand : (1 - p) * ((s ^ n : ℕ) : ℚ)
      = ((s ^ n : ℕ) : ℚ) - p * ((s ^ n : ℕ) : ℚ) := by ring
  unfold success_probability
  rw [le_div_iff₀ hDpos, husable]
  linarith

/-- The search loop finds the least index at or above `start` meeting the
probability bound, provided some such index lies inside the fuel window. -/
lemma find_rolls_spec (s u : ℕ) (p : ℚ) (fuel : ℕ) :
    ∀ start : ℕ,
      (∃ n, start ≤ n ∧ n < start + fuel ∧ meets_target s u n p = true) →
      start ≤ find_rolls s u p fuel start ∧
      meets_target s u (find_rolls s u p fuel start) p = true ∧
      ∀ m, start ≤ m → m < find_rolls s u p fuel start →
        meets_target s u m p = false := by
  induction fuel with
  | zero =>
    intro start h
    obtain ⟨n, h1, h2, _⟩ := h
    omega
  | succ f ih =>
    intro start h
    obtain ⟨n, h1, h2, h3⟩ := h
    rw [find_rolls]
    by_cases hstart : meets_target s u start p = true
    · rw [if_pos hstart]
      exact ⟨le_refl _, hstart, fun m hm1 hm2 => absurd hm1 (by omega)⟩
    · rw [if_neg hstart]
      have hn : n ≠ start := by
        intro hEq
        exact hstart (hEq ▸ h3)
      obtain ⟨ha, hb, hc⟩ := ih (start + 1) ⟨n, by omega, by omega, h3⟩
      refine ⟨by omega, hb, fun m hm1 hm2 => ?_⟩
      rcases Nat.eq_or_lt_of_le hm1 with hEq | hlt
      · exact hEq ▸ Bool.not_eq_true _ ▸ Bool.of_not_eq_true hstart
      · exact hc m hlt hm2

/-- Taking the difference from one does not enlarge the denominator. -/
lemma den_one_sub_le (p : ℚ) : (1 - p).den ≤ p.den := by
  have hdvd : (1 - p).den ∣ p.den := by
    have h := Rat.add_den_dvd 1 (-p)
    rw [Rat.neg_den, Rat.den_one, one_mul] at h
    rw [sub_eq_add_neg]
    exact h
  exact Nat.le_of_dvd p.pos hdvd

/-- The window of the fuelled search contains a successful number of rolls. -/
lemma frame_window (s u : ℕ) (p : ℚ) (hs : 2 ≤ s) (hu : 2 ≤ u) (hp1 : p < 1) :
    ∃ n, 1 ≤ n ∧ n < 1 + frame_fuel u p ∧ meets_target s u n p = true := by
  refine ⟨u * (1 - p).den, ?_, ?_, ?_⟩
  · have := (1 - p).pos
    exact Nat.one_le_iff_ne_zero.mpr (by positivity)
  · have hle : u * (1 - p).den ≤ u * p.den :=
      Nat.mul_le_mul_left _ (den_one_sub_le p)
    unfold frame_fuel
    omega
  · exact (meets_target_iff s u _ p (by omega)).mpr
      (success_probability_target s u p hs (by omega) hp1)

/-- `required_num_rolls` is positive, satisfies the bound, and is least. -/
lemma required_num_rolls_spec (s u : ℕ) (p : ℚ)
    (hs : 2 ≤ s) (hu : 2 ≤ u) (hp1 : p < 1) :
    1 ≤ required_num_rolls s u p ∧
    p ≤ success_probability s u (required_num_rolls s u p) ∧
    ∀ m, 1 ≤ m → m < required_num_rolls s u p → success_probability s u m < p := by
  obtain ⟨h1, h2, h3⟩ :=
    find_rolls_spec s u p (frame_fuel u p) 1 (frame_window s u p hs hu hp1)
  refine ⟨h1, (meets_target_iff s u _ p (by omega)).mp h2, fun m hm1 hm2 => ?_⟩
  have hfalse := h3 m hm1 hm2
  have : ¬ p ≤ success_probability s u m := by
    rw [← meets_target_iff s u m p (by omega)]
    simp [hfalse]
  exact lt_of_not_le this

/-- C1: for every `numSides ∈ [2,20]`, `upper ∈ [2,10^6]` and target
probability `0 < p < 1`, the `required_num_rolls` computed by
`compute_dice_frame` is minimal: the success probability at that many rolls
reaches `p`, while one roll fewer falls short of `p`. -/
theorem compute_dice_frame_minimal (num_sides upper : ℕ) (p : ℚ)
    (hs : 2 ≤ num_sides) (hs' : num_sides ≤ 20)
    (hu : 2 ≤ upper) (hu' : upper ≤ 10 ^ 6)
    (hp0 : 0 < p) (hp1 : p < 1) :
    p ≤ success_probability num_sides upper
        (compute_dice_frame num_sides upper p).required_num_rolls ∧
    success_probability num_sides upper
        ((compute_dice_frame num_sides upper p).required_num_rolls - 1) < p := by
  obtain ⟨h1, h2, h3⟩ := required_num_rolls_spec num_sides upper p hs hu hp1
  have hproj : (compute_dice_frame num_sides upper p).required_num_rolls
      = required_num_rolls num_sides upper p := rfl
  rw [hproj]
  refine ⟨h2, ?_⟩
  rcases Nat.eq_or_lt_of_le h1 with hEq | hlt
  · rw [show required_num_rolls num_sides upper p - 1 = 0 by omega]
    rw [success_probability_zero num_sides upper hu]
    exact hp0
  · exact h3 _ (by omega) (by omega)

/-- C2: for every valid input, the `upper_multiple` of the computed frame is
an exact multiple of `upper`, equals `floor(numSides^rolls / upper) * upper`,
and is the largest multiple of `upper` not exceeding `numSides^rolls`. -/
theorem compute_dice_frame_upper_multiple (num_sides upper : ℕ) (p : ℚ)
    (hs : 2 ≤ num_sides) (hu : 2 ≤ upper) (hp0 : 0 < p) (hp1 : p < 1) :
    upper ∣ (compute_dice_frame num_sides upper p).upper_multiple ∧
    (compute_dice_frame num_sides upper p).upper_multiple
      = num_sides ^ (compute_dice_frame num_sides upper p).required_num_rolls
          / upper * upper ∧
    (compute_dice_frame num_sides upper p).upper_multiple
      ≤ num_sides ^ (compute_dice_frame num_sides upper p).required_num_rolls ∧
    ∀ m, upper ∣ m →
      m ≤ num_sides ^ (compute_dice_frame num_sides upper p).required_num_rolls →
      m ≤ (compute_dice_frame num_sides upper p).upper_multiple := by
  refine ⟨dvd_usable _ _ _, rfl, usable_le _ _ _, ?_⟩
  intro m hdvd hle
  obtain ⟨k, hk⟩ := hdvd
  subst hk
  show upper * k ≤ usable num_sides upper _
  unfold usable
  have hk_le : k ≤ num_sides ^ (compute_dice_frame num_sides upper p).required_num_rolls
      / upper := by
    rw [Nat.le_div_iff_mul_le (by omega : 0 < upper), Nat.mul_comm]
    exact hle
  calc upper * k = k * upper := Nat.mul_comm _ _
    _ ≤ _ / upper * upper := Nat.mul_le_mul_right _ hk_le

/-- Modelled from the spec: `rolls_to_value` of `papass/utils.py` — positional
weighting of a roll batch, each roll minus one being a digit in base
`num_sides`, most-significant roll first (Horner evaluation of
`Σ (roll_i - 1) * num_sides^(n-1-i)`). -/
def rolls_to_value (num_sides : ℕ) (rolls : List ℕ) : ℕ :=
  rolls.foldl (fun value roll => value * num_sides + (roll - 1)) 0

/-- Modelled from the spec: the rejection loop of `DiceRng.randbelow` on a
given sequence of (already validated) roll batches: batches whose reduced
value reaches `upper_multiple` are rejected; the first accepted value is
returned modulo `upper`.  `none` models the loop still awaiting more rolls. -/
def dice_randbelow (num_sides upper : ℕ) (p : ℚ) (batches : List (List ℕ)) :
    Option ℕ :=
  ((batches.map (rolls_to_value num_sides)).find?
    (fun v => decide (v < (compute_dice_frame num_sides upper p).upper_multiple))).map
    (fun v => v % upper)

/-- C3 (amended): for `numSides = 6, upper = 31` with target probability `1/2`
(for which `requiredNumRolls = 2`), the `upper_multiple` is `31` — the largest
multiple of 31 not exceeding 36; the batch `[6,6]` reduces to `35` and is
rejected (`35 ≥ 31`); the batch `[2,3]` reduces to `8 < 31` and is accepted,
so `randbelow` returns `8 % 31 = 8`. -/
theorem dice_randbelow_6_31 :
    (compute_dice_frame 6 31 (1 / 2)).required_num_rolls = 2 ∧
    (compute_dice_frame 6 31 (1 / 2)).upper_multiple = 31 ∧
    rolls_to_value 6 [6, 6] = 35 ∧
    ¬ 35 < (compute_dice_frame 6 31 (1 / 2)).upper_multiple ∧
    rolls_to_value 6 [2, 3] = 8 ∧
    8 < (compute_dice_frame 6 31 (1 / 2)).upper_multiple ∧
    dice_randbelow 6 31 (1 / 2) [[6, 6], [2, 3]] = some 8 ∧
    (8 : ℕ) % 31 = 8 := by
  rw [show (1 / 2 : ℚ) = Rat.divInt 1 2 by rw [Rat.divInt_eq_div]; norm_num]
  decide

/-- C3 (counterexample): the spec's concrete example contradicts the model: at
a target probability for which `requiredNumRolls = 2`, the `upper_multiple` is
not `30` (30 is not a multiple of 31), the batch `[2,3]` does not reduce to
`7`, and `randbelow` does not return `7`. -/
theorem dice_randbelow_6_31_spec_example_false :
    (compute_dice_frame 6 31 (1 / 2)).required_num_rolls = 2 ∧
    ¬ (compute_dice_frame 6 31 (1 / 2)).upper_multiple = 30 ∧
    ¬ rolls_to_value 6 [2, 3] = 7 ∧
    ¬ dice_randbelow 6 31 (1 / 2) [[6, 6], [2, 3]] = some 7 := by
  rw [show (1 / 2 : ℚ) = Rat.divInt 1 2 by rw [Rat.divInt_eq_div]; norm_num]
  decide

/-! ## Random source abstraction -/

/-- Modelled from the spec (section 4.4): `choice(sequence)` is
`sequence[randbelow(len(sequence))]`.  The stream `rb` lists the source's
successive `randbelow` outputs; `k` is the index of the call. -/
def choice {α : Type} [Inhabited α] (rb : ℕ → ℕ) (l : List α) (k : ℕ) : α :=
  l.getD (rb k) default

/-- Draw `n` successive elements starting at call index `k`, threading the
call counter through the random source exactly as the Python generators
consume their rng. -/
def draw {α : Type} [Inhabited α] (rb : ℕ → ℕ) (l : List α) : ℕ → ℕ → List α
  | _, 0 => []
  | k, n + 1 => choice rb l k :: draw rb l (k + 1) n

/-- The sequential draws are the choices at call indices `k, k+1, …`. -/
lemma draw_eq_map {α : Type} [Inhabited α] (rb : ℕ → ℕ) (l : List α) :
    ∀ n k, draw rb l k n = (List.range n).map (fun i => choice rb l (k + i)) := by
  intro n
  induction n with
  | zero => intro k; simp [draw]
  | succ m ih =>
    intro k
    rw [draw, List.range_succ_eq_map, List.map_cons, List.map_map, ih (k + 1)]
    refine congrArg₂ _ (by simp) ?_
    apply List.map_congr_left
    intro i _
    simp only [Function.comp_apply]
    congr 1
    omega

/-! ## Passphrase generator (`papass/passphrase_generator.py`) -/

/-- The result record `PassPhraseResult` of the source. -/
structure PassPhraseResult where
  phrase : String
  entropy : ℝ
  entropy_is_guaranteed : Bool

/-- `PassPhraseGenerator._word_alphabet`: the set of letters occurring in the
words (modelled as the list of all letters; only membership is used). -/
def word_alphabet (wordlist : List String) : List Char :=
  (wordlist.map String.toList).join

/-- `PassPhraseGenerator._entropy_is_guaranteed`: `True` when at most one word
is drawn, `False` for the empty delimiter, `False` when the delimiter occurs
among the letters of the words, `True` otherwise. -/
def entropy_is_guaranteed (wordlist : List String) (delimiter : String)
    (count : ℕ) : Bool :=
  if count ≤ 1 then true
  else if delimiter = "" then false
  else if (word_alphabet wordlist).any (fun c => String.singleton c == delimiter)
    then false
  else true

/-- `PassPhraseGenerator.get_phrase`: join `count` successive `rng.choice`
draws with the delimiter; entropy is `count * log2(len(wordlist))`. -/
noncomputable def get_phrase (wordlist : List String) (delimiter : String)
    (rb : ℕ → ℕ) (count : ℕ) : PassPhraseResult :=
  { phrase := String.intercalate delimiter (draw rb wordlist 0 count)
    entropy := count * Real.logb 2 wordlist.length
    entropy_is_guaranteed := entropy_is_guaranteed wordlist delimiter count }

/-- Membership of the delimiter in the letter set, in elementary terms. -/
lemma word_alphabet_any_iff (wordlist : List String) (d : String) :
    ((word_alphabet wordlist).any (fun c => String.singleton c == d) = true) ↔
      ∃ w ∈ wordlist, ∃ c ∈ w.toList, String.singleton c = d := by
  simp only [word_alphabet, List.any_eq_true, List.mem_join, List.mem_map,
    beq_iff_eq]
  constructor
  · rintro ⟨c, ⟨chars, ⟨w, hw, rfl⟩, hc⟩, hEq⟩
    exact ⟨w, hw, c, hc, hEq⟩
  · rintro ⟨w, hw, c, hc, hEq⟩
    exact ⟨c, ⟨w.toList, ⟨w, hw, rfl⟩, hc⟩, hEq⟩

/-- C4: the entropy-guarantee flag is `true` iff at most one word is drawn,
or the delimiter is non-empty and its character occurs in no word. -/
theorem entropy_is_guaranteed_spec (wordlist : List String) (delimiter : String)
    (count : ℕ) (hd : delimiter.length ≤ 1) :
    entropy_is_guaranteed wordlist delimiter count = true ↔
      (count ≤ 1 ∨ (delimiter ≠ "" ∧
        ∀ w ∈ wordlist, ∀ c ∈ w.toList, String.singleton c ≠ delimiter)) := by
  unfold entropy_is_guaranteed
  by_cases h1 : count ≤ 1
  · simp [h1]
  · simp only [if_neg h1]
    by_cases h2 : delimiter = ""
    · simp [h1, h2]
    · simp only [if_neg h2]
      by_cases h3 : (word_alphabet wordlist).any
          (fun c => String.singleton c == delimiter) = true
      · rw [if_pos h3]
        obtain ⟨w, hw, c, hc, hEq⟩ := (word_alphabet_any_iff _ _).mp h3
        simp only [Bool.false_eq_true, false_iff]
        push_neg
        exact ⟨by omega, fun _ => ⟨w, hw, c, hc, hEq⟩⟩
      · rw [if_neg h3]
        have hno := (word_alphabet_any_iff wordlist delimiter).not.mp h3
        push_neg at hno
        simp only [true_iff]
        exact Or.inr ⟨h2, hno⟩

/-- C5: the phrase is the delimiter-join of the `count` successive choices
from the wordlist in draw order, and the reported entropy equals
`count * log2(wordlistSize)`. -/
theorem get_phrase_spec (wordlist : List String) (delimiter : String)
    (rb : ℕ → ℕ) (count : ℕ) (hw : wordlist ≠ []) :
    (get_phrase wordlist delimiter rb count).phrase
      = String.intercalate delimiter
          ((List.range count).map (fun k => choice rb wordlist k)) ∧
    (get_phrase wordlist delimiter rb count).entropy
      = count * Real.logb 2 wordlist.length := by
  refine ⟨?_, rfl⟩
  show String.intercalate delimiter (draw rb wordlist 0 count) = _
  rw [draw_eq_map]
  simp

/-- C9: with `count = 0` the phrase is empty, the entropy is zero, the
guarantee flag is `true`, and the result does not depend on the random
source at all (no draw is made). -/
theorem get_phrase_zero (wordlist : List String) (delimiter : String)
    (rb rb' : ℕ → ℕ) (hw : wordlist ≠ []) (hd : delimiter.length ≤ 1) :
    (get_phrase wordlist delimiter rb 0).phrase = "" ∧
    (get_phrase wordlist delimiter rb 0).entropy = 0 ∧
    (get_phrase wordlist delimiter rb 0).entropy_is_guaranteed = true ∧
    get_phrase wordlist delimiter rb 0 = get_phrase wordlist delimiter rb' 0 := by
  refine ⟨rfl, ?_, rfl, rfl⟩
  show ((0 : ℕ) : ℝ) * Real.logb 2 wordlist.length = 0
  simp

/-! ## Password generator (`papass/password_generator.py`) -/

/-- The result record `PasswordResult` of the source: it has exactly the two
fields `password` and `entropy`. -/
structure PasswordResult where
  password : String
  entropy : ℝ

/-- `list(sorted(set(alphabet)))` from `PasswordGenerator.__init__`: the
deduplicated alphabet in ascending order (`insertionSort` models Python's
`sorted`; any sorting algorithm agrees extensionally). -/
def password_alphabet (alphabet : List Char) : List Char :=
  List.insertionSort (· ≤ ·) alphabet.dedup

/-- `PasswordGenerator.generate`: concatenate `length` successive
`rng.choice` draws from the internal alphabet; entropy is
`length * log2(len(alphabet))` over the deduplicated alphabet. -/
noncomputable def generate_password (alphabet : List Char) (rb : ℕ → ℕ)
    (length : ℕ) : PasswordResult :=
  { password := String.mk (draw rb (password_alphabet alphabet) 0 length)
    entropy := length * Real.logb 2 (password_alphabet alphabet).length }

lemma list_toFinset_dedup (l : List Char) : l.dedup.toFinset = l.toFinset := by
  ext c
  simp [List.mem_dedup]

lemma password_alphabet_perm (a : List Char) : List.Perm (password_alphabet a) a.dedup :=
  List.perm_insertionSort _ _

lemma password_alphabet_nodup (a : List Char) : (password_alphabet a).Nodup :=
  ((password_alphabet_perm a).nodup_iff).mpr (List.nodup_dedup a)

lemma logb_two_four : Real.logb 2 (4 : ℝ) = 2 := by
  have hlog : Real.log 2 ≠ 0 := ne_of_gt (Real.log_pos (by norm_num))
  rw [show Real.logb 2 (4 : ℝ) = Real.log (4 : ℝ) / Real.log 2 from rfl]
  rw [show (4 : ℝ) = 2 ^ (2 : ℕ) by norm_num, Real.log_pow]
  field_simp

/-- C6: the alphabet is deduplicated and canonically ordered before use,
draws go through `choice` over the deduplicated alphabet, the entropy is
`length * log2(#distinct characters)`, and for alphabet `"aabbcd"` with
`length = 5` the entropy equals exactly `10`. -/
theorem generate_password_spec (alphabet : List Char) (rb : ℕ → ℕ) (len : ℕ)
    (ha : alphabet ≠ []) :
    (password_alphabet alphabet).Nodup ∧
    List.Sorted (· ≤ ·) (password_alphabet alphabet) ∧
    (∀ c, c ∈ password_alphabet alphabet ↔ c ∈ alphabet) ∧
    (generate_password alphabet rb len).password
      = String.mk ((List.range len).map
          (fun k => choice rb (password_alphabet alphabet) k)) ∧
    (generate_password alphabet rb len).entropy
      = len * Real.logb 2 (alphabet.toFinset.card) ∧
    (generate_password "aabbcd".toList rb 5).entropy = 10 := by
  refine ⟨password_alphabet_nodup _, List.sorted_insertionSort _ _, ?_, ?_, ?_, ?_⟩
  · intro c
    rw [(password_alphabet_perm alphabet).mem_iff, List.mem_dedup]
  · show String.mk (draw rb (password_alphabet alphabet) 0 len) = _
    rw [draw_eq_map]
    simp
  · show (len : ℝ) * Real.logb 2 ((password_alphabet alphabet).length : ℝ) = _
    rw [(password_alphabet_perm alphabet).length_eq, ← List.card_toFinset]
  · show ((5 : ℕ) : ℝ) * Real.logb 2 ((password_alphabet "aabbcd".toList).length : ℝ)
      = 10
    rw [show (password_alphabet "aabbcd".toList).length = 4 by decide]
    norm_num [logb_two_four]

/-- C7 (counterexample): the code's `PasswordResult` cannot carry the spec's
`entropyIsGuaranteed` boolean: no constructor-with-flag and flag projection
exist for it, because the record is fully determined by `password` and
`entropy` alone. -/
theorem password_result_no_guarantee_field :
    ¬ ∃ (mk3 : String → ℝ → Bool → PasswordResult)
        (flag : PasswordResult → Bool),
        ∀ t e b, (mk3 t e b).password = t ∧ (mk3 t e b).entropy = e ∧
          flag (mk3 t e b) = b := by
  rintro ⟨mk3, flag, h⟩
  have h1 := h "" 0 true
  have h2 := h "" 0 false
  have hext : ∀ r s : PasswordResult,
      r.password = s.password → r.entropy = s.entropy → r = s := by
    rintro ⟨p1, e1⟩ ⟨p2, e2⟩ hp he
    simp_all
  have hEq : mk3 "" 0 true = mk3 "" 0 false :=
    hext _ _ (h1.1.trans h2.1.symm) (h1.2.1.trans h2.2.1.symm)
  have hbool : true = false := by
    rw [← h1.2.2, hEq, h2.2.2]
  exact Bool.noConfusion hbool

/-- C7 (amended): the result of the password generator is fully determined by
its `password` and `entropy` fields — the record carries no
`entropy_is_guaranteed` flag (for single characters the entropy estimate
needs no flag; the code omits it). -/
theorem generate_password_result_ext (alphabet : List Char) (rb : ℕ → ℕ)
    (len : ℕ) (r : PasswordResult)
    (hp : r.password = (generate_password alphabet rb len).password)
    (he : r.entropy = (generate_password alphabet rb len).entropy) :
    r = generate_password alphabet rb len := by
  obtain ⟨p, e⟩ := r
  subst hp
  subst he
  rfl

/-- C10: two alphabets with the same character set yield the same internal
(sorted, deduplicated) alphabet, hence identical passwords and identical
entropy for the same sequence of draws. -/
theorem password_generator_set_semantics (a b : List Char)
    (ha : a ≠ []) (hb : b ≠ []) (hset : a.toFinset = b.toFinset)
    (rb : ℕ → ℕ) (len : ℕ) :
    password_alphabet a = password_alphabet b ∧
    generate_password a rb len = generate_password b rb len := by
  have hperm : List.Perm a.dedup b.dedup :=
    List.perm_of_nodup_nodup_toFinset_eq (List.nodup_dedup a) (List.nodup_dedup b)
      (by rw [list_toFinset_dedup, list_toFinset_dedup, hset])
  have halpha : password_alphabet a = password_alphabet b :=
    List.eq_of_perm_of_sorted
      ((password_alphabet_perm a).trans
        (hperm.trans (password_alphabet_perm b).symm))
      (List.sorted_insertionSort _ _) (List.sorted_insertionSort _ _)
  refine ⟨halpha, ?_⟩
  unfold generate_password
  rw [halpha]

/-! ## Rng registry (`papass/random_source/registry.py`) and configuration
errors -/

/-- The two registered randomness sources of `_rng_registry`: `SystemRng`,
and `DiceRng` with its `num_sides` option wired from `dice_sides`. -/
inductive Rng
  | system : Rng
  | dice (num_sides : ℕ) : Rng
  deriving DecidableEq

/-- `get_rng`: look the source name up in the registry; an unknown name is an
assertion failure (modelled as `Except.error`), raised before any draw. -/
def get_rng (random_source : String) (dice_sides : ℕ) : Except String Rng :=
  if random_source = "system" then .ok .system
  else if random_source = "dice" then .ok (.dice dice_sides)
  else .error ("Unknown random source `" ++ random_source ++
    "`. Use one of 'system', 'dice'.")

/-- `PassPhraseGenerator.__init__` followed by `get_phrase`: the delimiter
assertion is checked at construction time, before any draw. -/
noncomputable def passphrase_pipeline (wordlist : List String)
    (delimiter : String) (rb : ℕ → ℕ) (count : ℕ) :
    Except String PassPhraseResult :=
  if delimiter.length ≤ 1 then .ok (get_phrase wordlist delimiter rb count)
  else .error "--delimiter must be single character or empty."

/-- `PasswordGenerator.__init__` followed by `generate`: the alphabet
assertions are checked at construction time, before any draw; the validated
alphabet of one-character strings is then carried as characters. -/
noncomputable def password_pipeline (alphabet : List String) (rb : ℕ → ℕ)
    (len : ℕ) : Except String PasswordResult :=
  if alphabet.length > 0 then
    if alphabet.all (fun c => decide (c.length = 1)) then
      .ok (generate_password (alphabet.map (fun s => s.toList.headD 'a')) rb len)
    else .error "Alphabet must be a list of characters (length 1)."
  else .error "Alphabet must not be empty."

/-- C8: every configuration error — unknown source name, delimiter longer
than one character, empty alphabet, or multi-character alphabet token —
makes the operation fail with a fixed error value that does not depend on the
random source: its stream `rb` is never consulted, so no draw is made. -/
theorem configuration_errors_fail_before_draws
    (source : String) (dice_sides : ℕ) (delimiter : String)
    (wordlist : List String) (alpha : List String)
    (rb : ℕ → ℕ) (count len : ℕ)
    (hsrc : source ≠ "system" ∧ source ≠ "dice")
    (hdel : 1 < delimiter.length)
    (halpha : alpha ≠ [] ∧ ∃ c ∈ alpha, c.length ≠ 1) :
    get_rng source dice_sides
      = .error ("Unknown random source `" ++ source ++
          "`. Use one of 'system', 'dice'.") ∧
    passphrase_pipeline wordlist delimiter rb count
      = .error "--delimiter must be single character or empty." ∧
    password_pipeline [] rb len = .error "Alphabet must not be empty." ∧
    password_pipeline alpha rb len
      = .error "Alphabet must be a list of characters (length 1)." := by
  refine ⟨?_, ?_, ?_, ?_⟩
  · unfold get_rng
    rw [if_neg hsrc.1, if_neg hsrc.2]
  · unfold passphrase_pipeline
    rw [if_neg (by omega)]
  · rfl
  · unfold password_pipeline
    obtain ⟨hne, c, hc, hlen⟩ := halpha
    rw [if_pos (List.length_pos.mpr hne), if_neg (by
      intro hall
      rw [List.all_eq_true] at hall
      have h5 := hall c hc
      simp only [decide_eq_true_eq] at h5
      exact hlen h5)]

/-! ## Witnesses -/

/-- Witness for `compute_dice_frame_minimal` at `numSides = 6`, `upper = 31`,
`p = 1/2`. -/
theorem compute_dice_frame_minimal_witness :
    ((2 : ℕ) ≤ 6 ∧ (6 : ℕ) ≤ 20 ∧ (2 : ℕ) ≤ 31 ∧ (31 : ℕ) ≤ 10 ^ 6 ∧
      (0 : ℚ) < 1 / 2 ∧ (1 / 2 : ℚ) < 1) ∧
    (1 / 2 ≤ success_probability 6 31
        (compute_dice_frame 6 31 (1 / 2)).required_num_rolls ∧
      success_probability 6 31
        ((compute_dice_frame 6 31 (1 / 2)).required_num_rolls - 1) < 1 / 2) :=
  ⟨by norm_num,
    compute_dice_frame_minimal 6 31 (1 / 2) (by norm_num) (by norm_num)
      (by norm_num) (by norm_num) (by norm_num) (by norm_num)⟩

/-- Witness for `compute_dice_frame_upper_multiple` at `numSides = 6`,
`upper = 31`, `p = 1/2`. -/
theorem compute_dice_frame_upper_multiple_witness :
    ((2 : ℕ) ≤ 6 ∧ (2 : ℕ) ≤ 31 ∧ (0 : ℚ) < 1 / 2 ∧ (1 / 2 : ℚ) < 1) ∧
    (31 ∣ (compute_dice_frame 6 31 (1 / 2)).upper_multiple ∧
      (compute_dice_frame 6 31 (1 / 2)).upper_multiple
        = 6 ^ (compute_dice_frame 6 31 (1 / 2)).required_num_rolls / 31 * 31 ∧
      (compute_dice_frame 6 31 (1 / 2)).upper_multiple
        ≤ 6 ^ (compute_dice_frame 6 31 (1 / 2)).required_num_rolls ∧
      ∀ m, 31 ∣ m →
        m ≤ 6 ^ (compute_dice_frame 6 31 (1 / 2)).required_num_rolls →
        m ≤ (compute_dice_frame 6 31 (1 / 2)).upper_multiple) :=
  ⟨by norm_num,
    compute_dice_frame_upper_multiple 6 31 (1 / 2) (by norm_num) (by norm_num)
      (by norm_num) (by norm_num)⟩

/-- Witness for `entropy_is_guaranteed_spec` on the wordlist
`["cat", "dog"]`, delimiter `" "`, count `3`. -/
theorem entropy_is_guaranteed_spec_witness :
    (" ".length ≤ 1) ∧
    (entropy_is_guaranteed ["cat", "dog"] " " 3 = true ↔
      (3 ≤ 1 ∨ ((" " : String) ≠ "" ∧
        ∀ w ∈ (["cat", "dog"] : List String), ∀ c ∈ w.toList,
          String.singleton c ≠ " "))) :=
  ⟨by decide, entropy_is_guaranteed_spec ["cat", "dog"] " " 3 (by decide)⟩

/-- Witness for `get_phrase_spec` on the wordlist `["cat", "dog"]` with the
identity draw stream and count `2`. -/
theorem get_phrase_spec_witness :
    ((["cat", "dog"] : List String) ≠ []) ∧
    ((get_phrase ["cat", "dog"] " " (fun k => k) 2).phrase
      = String.intercalate " "
          ((List.range 2).map (fun k => choice (fun k => k) ["cat", "dog"] k)) ∧
      (get_phrase ["cat", "dog"] " " (fun k => k) 2).entropy
        = ((2 : ℕ) : ℝ)
            * Real.logb 2 (((["cat", "dog"] : List String).length : ℕ) : ℝ)) :=
  ⟨by decide, get_phrase_spec ["cat", "dog"] " " (fun k => k) 2 (by decide)⟩

/-- Witness for `get_phrase_zero` on the wordlist `["cat", "dog"]`. -/
theorem get_phrase_zero_witness :
    ((["cat", "dog"] : List String) ≠ [] ∧ " ".length ≤ 1) ∧
    ((get_phrase ["cat", "dog"] " " (fun k => k) 0).phrase = "" ∧
      (get_phrase ["cat", "dog"] " " (fun k => k) 0).entropy = 0 ∧
      (get_phrase ["cat", "dog"] " " (fun k => k) 0).entropy_is_guaranteed = true ∧
      get_phrase ["cat", "dog"] " " (fun k => k) 0
        = get_phrase ["cat", "dog"] " " (fun _ => 1) 0) :=
  ⟨⟨by decide, by decide⟩,
    get_phrase_zero ["cat", "dog"] " " (fun k => k) (fun _ => 1) (by decide)
      (by decide)⟩

/-- Witness for `generate_password_spec` on the alphabet `"aabbcd"` with
`length = 5`: the entropy is exactly `10`. -/
theorem generate_password_spec_witness :
    ("aabbcd".toList ≠ []) ∧
    (generate_password "aabbcd".toList (fun _ => 0) 5).entropy = 10 :=
  ⟨by decide,
    (generate_password_spec "aabbcd".toList (fun _ => 0) 5 (by decide)).2.2.2.2.2⟩

/-- Witness for `generate_password_result_ext` at a concrete generation. -/
theorem generate_password_result_ext_witness :
    ((generate_password ['a'] (fun _ => 0) 1).password
        = (generate_password ['a'] (fun _ => 0) 1).password ∧
      (generate_password ['a'] (fun _ => 0) 1).entropy
        = (generate_password ['a'] (fun _ => 0) 1).entropy) ∧
    generate_password ['a'] (fun _ => 0) 1 = generate_password ['a'] (fun _ => 0) 1 :=
  ⟨⟨rfl, rfl⟩, generate_password_result_ext ['a'] (fun _ => 0) 1 _ rfl rfl⟩

/-- Witness for `password_generator_set_semantics` on `['b','a','a']` and
`['a','b']`, which have the same character set. -/
theorem password_generator_set_semantics_witness :
    ((['b', 'a', 'a'] : List Char) ≠ [] ∧ (['a', 'b'] : List Char) ≠ [] ∧
      (['b', 'a', 'a'] : List Char).toFinset = (['a', 'b'] : List Char).toFinset) ∧
    (password_alphabet ['b', 'a', 'a'] = password_alphabet ['a', 'b'] ∧
      generate_password ['b', 'a', 'a'] (fun k => k) 3
        = generate_password ['a', 'b'] (fun k => k) 3) :=
  ⟨⟨by decide, by decide, by decide⟩,
    password_generator_set_semantics ['b', 'a', 'a'] ['a', 'b'] (by decide)
      (by decide) (by decide) (fun k => k) 3⟩

/-- Witness for `configuration_errors_fail_before_draws` on the source name
`"foo"`, delimiter `"ab"` and alphabet `["ab"]`. -/
theorem configuration_errors_fail_before_draws_witness :
    (("foo" : String) ≠ "system" ∧ ("foo" : String) ≠ "dice") ∧
    (1 < ("ab" : String).length) ∧
    ((["ab"] : List String) ≠ [] ∧ ∃ c ∈ (["ab"] : List String), c.length ≠ 1) ∧
    (get_rng "foo" 6
        = .error ("Unknown random source `" ++ "foo" ++
            "`. Use one of 'system', 'dice'.") ∧
      passphrase_pipeline ["w"] "ab" (fun k => k) 1
        = .error "--delimiter must be single character or empty." ∧
      password_pipeline [] (fun k => k) 1 = .error "Alphabet must not be empty." ∧
      password_pipeline ["ab"] (fun k => k) 1
        = .error "Alphabet must be a list of characters (length 1).") :=
  ⟨⟨by decide, by decide⟩, by decide, ⟨by decide, by decide⟩,
    configuration_errors_fail_before_draws "foo" 6 "ab" ["w"] ["ab"]
      (fun k => k) 1 1 ⟨by decide, by decide⟩ (by decide)
      ⟨by decide, by decide⟩⟩

end Papass
